import Mathlib

/-!
Verification development for the per-sample transformer-analysis pipeline in
`experimentation.py`.

The embedding follows the source code function by function:

* `stack_padded` — the Population Aggregator (`stack_padded` in the source),
  modelled on a numpy-style array type `NDArray` (shape, dtype code, entries).
  The source asserts non-emptiness and raises on rank mismatch, so the model
  returns an `Option`.
* `get_random_input` — the Corpus Provider loop, modelled with explicit fuel
  over a stream of candidate tokenisations (the source loops until the
  tokenised input has at least `MIN_NUM_TOKENS` tokens).
* `compute_cos_similarities` — cosine-similarity matrices.  The source calls
  `torch.nn.functional.normalize(X, dim=-1)`, whose semantics is
  `x / max(norm(x), eps)` with `eps = 1e-12`; the clamp is modelled exactly.
* `compute_attention_logits` — scaled dot-product logits; Python's `zip`
  truncates to the shortest input, which the recursion below mirrors.
* `compute_clustering` — the per-matrix glue around the external PCA / HDBSCAN
  / silhouette / validity-index calls.  The external numeric routines are
  parameters of the model; the sklearn validity check on `n_components=32`
  (which raises unless `32 ≤ min(n_samples, n_features)`) and all of the
  source's own post-processing (cluster count, outlier rate, sentinel scores)
  are modelled concretely.
* `processSample` — the per-sample loop body of `run_experiment`, in
  particular the selection `data = hidden_states[1:] if target == "X" else
  logit_matrices` that feeds clustering and t-SNE for each target.

Machine floats are modelled as exact reals; values that the source stores in
numpy arrays of rationals (labels, pad values) use `ℚ`/`ℤ` so that concrete
instances evaluate by `decide`.
-/

set_option maxRecDepth 8192

namespace Experimentation

/-! ## Population Aggregator: `stack_padded` -/

/-- A dense numpy-style array: a shape, an abstract dtype code, and the entries
(the data function is meaningful on indices inside the shape; elsewhere it is
irrelevant junk). -/
structure NDArray where
  shape : List Nat
  dtype : Nat
  data : List Nat → ℚ

/-- `max(a.shape[dim] for a in ndarray_list)` for each `dim` in
`range(ndarray_list[0].ndim)`. -/
def maxShape (l : List NDArray) (ndim : Nat) : List Nat :=
  (List.range ndim).map fun dim => (l.map fun a => a.shape.getD dim 0).foldl Nat.max 0

/-- Whether an index vector lies in the top-left-aligned region of an array
of the given shape (the region written by `stacked_array[i, *slices] = a`). -/
def inRegion (shape idx : List Nat) : Bool :=
  idx.length == shape.length && (idx.zip shape).all fun p => p.1 < p.2

/-- The value stored at position `tail` of slot `i` of the stacked array:
the `i`-th input's entry inside its copied region, the pad value 0 outside. -/
def slotValue (l : List NDArray) (i : Nat) (tail : List Nat) : ℚ :=
  match l[i]? with
  | none => 0
  | some a => if inRegion a.shape tail then a.data tail else 0

/-- The data function of the stacked array (first index selects the slot). -/
def stackData (l : List NDArray) : List Nat → ℚ
  | [] => 0
  | i :: tail => slotValue l i tail

/-- `stack_padded` from the source: assert the list is non-empty, compute the
element-wise maximum shape, allocate `[S, *max_shape]` filled with the pad
value 0, and copy every array into the top-left corner of its slot.  The
`assert` on an empty list and the `IndexError` raised when ranks disagree are
modelled by `none`. -/
def stack_padded (ndarray_list : List NDArray) : Option NDArray :=
  match ndarray_list with
  | [] => none
  | a0 :: rest =>
    if ((a0 :: rest).all fun a => a.shape.length == a0.shape.length) then
      some
        { shape := (a0 :: rest).length :: maxShape (a0 :: rest) a0.shape.length
          dtype := a0.dtype
          data := stackData (a0 :: rest) }
    else none

/-! ## Corpus Provider: `get_random_input` -/

/-- `MIN_NUM_TOKENS` from the source. -/
def MIN_NUM_TOKENS : Nat := 300

/-- The resampling loop of `get_random_input`, modelled over a stream of
candidate tokenisations (`candidates n` is the token-id list produced by the
`n`-th iteration's random draw) with explicit fuel: the source keeps drawing
until `input.input_ids.shape[1] >= MIN_NUM_TOKENS`. -/
def get_random_input (candidates : Nat → List Nat) : Nat → Nat → Option (List Nat)
  | _, 0 => none
  | n, fuel + 1 =>
    if MIN_NUM_TOKENS ≤ (candidates n).length then some (candidates n)
    else get_random_input candidates (n + 1) fuel

noncomputable section

/-! ## Matrix Builder: cosine similarities and attention logits -/

/-- A real matrix as a list of rows (a numpy/torch 2-D tensor). -/
abbrev Mat := List (List ℝ)

/-- Row-by-row dot product, the entry-level content of `torch.matmul` with a
transposed second factor. -/
def dot : List ℝ → List ℝ → ℝ
  | x :: xs, y :: ys => x * y + dot xs ys
  | _, _ => 0

/-- The `eps` default of `torch.nn.functional.normalize`. -/
def normEps : ℝ := 1 / 10 ^ 12

/-- Squared Euclidean norm of a row. -/
def sqNorm (u : List ℝ) : ℝ := dot u u

/-- Euclidean norm of a row. -/
def l2norm (u : List ℝ) : ℝ := Real.sqrt (sqNorm u)

/-- `F.normalize(X, dim=-1)` applied to one row: divide by
`max(‖u‖₂, eps)` (torch clamps the denominator at `eps = 1e-12`). -/
def normalizeRow (u : List ℝ) : List ℝ :=
  u.map fun x => x / max (l2norm u) normEps

/-- One layer's cosine-similarity matrix: normalise each row, then form all
pairwise dot products (`X_unit @ X_unit.T`). -/
def cosSimMatrix (X : Mat) : Mat :=
  (X.map normalizeRow).map fun u => (X.map normalizeRow).map fun v => dot u v

/-- `compute_cos_similarities` from the source: one similarity matrix per
layer. -/
def compute_cos_similarities (hidden_states : List Mat) : List Mat :=
  hidden_states.map cosSimMatrix

/-- Entry `(i, j)` of a matrix (0 outside the stored rectangle, which the
theorems never rely on). -/
def entry (M : Mat) (i j : Nat) : ℝ :=
  ((M[i]?).bind fun r => r[j]?).getD 0

/-- Number of columns of a matrix, i.e. `M.shape[-1]` for an `N × d` tensor. -/
def ncols (M : Mat) : Nat := (M.headD []).length

/-- One layer's attention-logit matrix: `factor * (Q @ K.T)` with
`factor = K.shape[-1] ** -0.5 = 1 / sqrt(d')`. -/
def attnLogitMatrix (Q K : Mat) : Mat :=
  Q.map fun q => K.map fun k => 1 / Real.sqrt (ncols K) * dot q k

/-- `compute_attention_logits` from the source.  The Python loop iterates
`zip(hidden_states, queries, keys)`, which silently stops at the shortest of
the three lists; the recursion mirrors that exactly. -/
def compute_attention_logits : List Mat → List (Mat → Mat) → List (Mat → Mat) → List Mat
  | X :: hs, query :: qs, key :: ks =>
    attnLogitMatrix (query X) (key X) :: compute_attention_logits hs qs ks
  | _, _, _ => []

/-! ## Structure Analyzer: `compute_clustering` -/

/-- The 4-tuple stored as `np.array([num_clusters, outlier_rate, silh_score,
dbcv_score])`. -/
structure ClusterMetrics where
  numClusters : ℝ
  outlierRate : ℝ
  silhScore : ℝ
  dbcvScore : ℝ

/-- `labels.max()` of a non-empty numpy integer array (HDBSCAN always returns
one label per point, and the source only calls this on non-empty data). -/
def npMax (l : List ℤ) : ℤ := l.foldl max (l.headD 0)

/-- One iteration of the loop in `compute_clustering`, for a single matrix
`X`.  The external numeric routines are parameters: `pca` is the projection
computed by `PCA(n_components=32).fit_transform` on a valid input, `hdbscan`
the label vector of `HDBSCAN(min_cluster_size=3).fit`, and `silhouette` /
`dbcv` the two quality scores.  sklearn's PCA raises `ValueError` unless
`n_components=32 ≤ min(n_samples, n_features)`; that validity check (and the
propagation of the raised error) is modelled concretely by the `if`, while the
cast `astype(np.float64)` is the identity on exact reals.  Everything after
the PCA call is the source's own arithmetic, modelled exactly. -/
def clusterStep (pca : Mat → Mat) (hdbscan : Mat → List ℤ)
    (silhouette dbcv : Mat → List ℤ → ℝ) (X : Mat) :
    Option (List ℤ × ClusterMetrics) :=
  if 32 ≤ min X.length (ncols X) then
    let Xr := pca X
    let labels := hdbscan Xr
    let numClusters : ℤ := npMax labels + 1
    some (labels,
      { numClusters := (numClusters : ℝ)
        outlierRate := (labels.count (-1) : ℝ) / (labels.length : ℝ)
        silhScore := if 1 < numClusters then silhouette Xr labels else 1
        dbcvScore := if 1 < numClusters then dbcv Xr labels else 1 })
  else none

/-- `compute_clustering` from the source, over a list of per-layer matrices.
An exception raised for any matrix aborts the whole call (nothing is
returned), hence the `Option` threading. -/
def compute_clustering (pca : Mat → Mat) (hdbscan : Mat → List ℤ)
    (silhouette dbcv : Mat → List ℤ → ℝ) : List Mat → Option (List (List ℤ × ClusterMetrics))
  | [] => some []
  | X :: rest =>
    match clusterStep pca hdbscan silhouette dbcv X with
    | none => none
    | some r => (compute_clustering pca hdbscan silhouette dbcv rest).map (r :: ·)

/-! ## Sample Pipeline: the loop body of `run_experiment` -/

/-- The string the source compares each target against on the line
`data = hidden_states[1:] if target == "X" else logit_matrices`. -/
def xLabel : String := "X"

/-- First element of the target loop `for target in ["token", "attention_logit"]`. -/
def tokenTarget : String := "token"

/-- Second element of the target loop. -/
def attnTarget : String := "attention_logit"

/-- The data handed to `compute_clustering` and `compute_tsne_embeddings` for
one target: the source's conditional expression, verbatim. -/
def clusterInputFor (target : String) (hiddenTail logit_matrices : List Mat) : List Mat :=
  if target = xLabel then hiddenTail else logit_matrices

/-- The per-sample results relevant to which data each stage consumes. -/
structure SampleResults where
  token_similarity : List Mat
  attention_logits : List Mat
  token_cluster_input : List Mat
  attention_logit_cluster_input : List Mat

/-- The per-sample body of `run_experiment`: similarities from
`hidden_states[1:]`, logits from `hidden_states[:-1]` with the per-layer
projectors, and for each target in `["token", "attention_logit"]` the
clustering/t-SNE input chosen by `clusterInputFor`. -/
def processSample (hidden_states : List Mat) (queries keys : List (Mat → Mat)) :
    SampleResults :=
  let hiddenTail := hidden_states.drop 1
  let logit_matrices := compute_attention_logits hidden_states.dropLast queries keys
  { token_similarity := compute_cos_similarities hiddenTail
    attention_logits := logit_matrices
    token_cluster_input := clusterInputFor tokenTarget hiddenTail logit_matrices
    attention_logit_cluster_input := clusterInputFor attnTarget hiddenTail logit_matrices }

/-! ### Concrete arrays used to instantiate the aggregation spec -/

/-- A concrete 3×3 array (entries `3*i + j + 1`). -/
def padA : NDArray :=
  ⟨[3, 3], 7, fun idx => ((3 * idx.headD 0 + idx.getD 1 0 + 1 : ℕ) : ℚ)⟩

/-- A concrete 5×5 array. -/
def padB : NDArray :=
  ⟨[5, 5], 7, fun idx => ((5 * idx.headD 0 + idx.getD 1 0 + 100 : ℕ) : ℚ)⟩

/-- A concrete 2×2 array. -/
def padC : NDArray := ⟨[2, 2], 7, fun _ => 42⟩

end

/-! ## Theorems -/

theorem dot_comm (u v : List ℝ) : dot u v = dot v u := by
  induction u generalizing v with
  | nil => cases v <;> simp [dot]
  | cons x xs ih =>
    cases v with
    | nil => simp [dot]
    | cons y ys => simp [dot, ih, mul_comm]

theorem dot_self_nonneg (u : List ℝ) : 0 ≤ dot u u := by
  induction u with
  | nil => simp [dot]
  | cons x xs ih => simpa [dot] using add_nonneg (mul_self_nonneg x) ih

theorem eq_zero_of_dot_self_eq_zero {u : List ℝ} (h : dot u u = 0) : ∀ x ∈ u, x = 0 := by
  induction u with
  | nil => simp
  | cons y ys ih =>
    rw [dot] at h
    have h1 : y * y = 0 ∧ dot ys ys = 0 := by
      constructor <;> nlinarith [mul_self_nonneg y, dot_self_nonneg ys]
    intro x hx
    rcases List.mem_cons.mp hx with rfl | hx'
    · exact mul_self_eq_zero.mp h1.1
    · exact ih h1.2 x hx'

theorem dot_eq_zero_of_forall_zero {u : List ℝ} (h : ∀ x ∈ u, x = 0) (v : List ℝ) :
    dot u v = 0 := by
  induction u generalizing v with
  | nil => cases v <;> simp [dot]
  | cons y ys ih =>
    cases v with
    | nil => simp [dot]
    | cons z zs =>
      have hy := h y (List.mem_cons_self y ys)
      simp [dot, hy, ih fun x hx => h x (List.mem_cons_of_mem _ hx)]

theorem dot_map_div_self (u : List ℝ) (c : ℝ) :
    dot (u.map fun x => x / c) (u.map fun x => x / c) = dot u u / (c * c) := by
  induction u with
  | nil => simp [dot]
  | cons x xs ih =>
    simp only [List.map_cons, dot, ih, div_mul_div_comm, div_add_div_same]

/-- C4: `stack_padded` on the empty list fails (the source's
`assert ndarray_list` raises `AssertionError`) rather than returning any
array. -/
theorem stack_padded_nil_fails : stack_padded [] = none := rfl

/-- C10: every input the resampling loop of `get_random_input` returns has at
least `MIN_NUM_TOKENS = 300` tokens, regardless of the candidate stream, the
iteration the loop starts at, or the fuel bound. -/
theorem get_random_input_min_tokens (candidates : Nat → List Nat) (n fuel : Nat)
    (out : List Nat) (h : get_random_input candidates n fuel = some out) :
    300 ≤ out.length := by
  induction fuel generalizing n with
  | zero => simp [get_random_input] at h
  | succ fuel ih =>
    rw [get_random_input] at h
    by_cases hc : MIN_NUM_TOKENS ≤ (candidates n).length
    · rw [if_pos hc] at h
      cases h
      exact hc
    · rw [if_neg hc] at h
      exact ih (n + 1) h

/-- Witness for C10 at a concrete candidate stream. -/
theorem get_random_input_min_tokens_witness :
    get_random_input (fun _ => List.replicate 300 0) 0 1 = some (List.replicate 300 0) ∧
    300 ≤ (List.replicate 300 0).length :=
  ⟨by rw [get_random_input,
        if_pos (show MIN_NUM_TOKENS ≤ (List.replicate 300 0).length by
          rw [List.length_replicate]; exact Nat.le_refl 300)],
   get_random_input_min_tokens (fun _ => List.replicate 300 0) 0 1 _
     (by rw [get_random_input,
        if_pos (show MIN_NUM_TOKENS ≤ (List.replicate 300 0).length by
          rw [List.length_replicate]; exact Nat.le_refl 300)])⟩

theorem compute_attention_logits_length (hs : List Mat) (qs ks : List (Mat → Mat)) :
    (compute_attention_logits hs qs ks).length = min (min hs.length qs.length) ks.length := by
  induction hs generalizing qs ks with
  | nil =>
    rw [show compute_attention_logits [] qs ks = [] from rfl]
    simp
  | cons X hs ih =>
    cases qs with
    | nil =>
      rw [show compute_attention_logits (X :: hs) [] ks = [] from rfl]
      simp
    | cons q qs =>
      cases ks with
      | nil =>
        rw [show compute_attention_logits (X :: hs) (q :: qs) [] = [] from rfl]
        simp
      | cons k ks =>
        rw [show compute_attention_logits (X :: hs) (q :: qs) (k :: ks) =
              attnLogitMatrix (q X) (k X) :: compute_attention_logits hs qs ks from rfl]
        rw [List.length_cons, ih, List.length_cons, List.length_cons, List.length_cons,
          Nat.succ_min_succ, Nat.succ_min_succ]

theorem compute_attention_logits_get (hs : List Mat) (qs ks : List (Mat → Mat)) (i : Nat)
    (X : Mat) (q k : Mat → Mat) (hX : hs[i]? = some X) (hq : qs[i]? = some q)
    (hk : ks[i]? = some k) :
    (compute_attention_logits hs qs ks)[i]? = some (attnLogitMatrix (q X) (k X)) := by
  induction hs generalizing qs ks i with
  | nil => simp at hX
  | cons Y hs ih =>
    cases qs with
    | nil => simp at hq
    | cons q0 qs =>
      cases ks with
      | nil => simp at hk
      | cons k0 ks =>
        cases i with
        | zero =>
          simp only [List.getElem?_cons_zero, Option.some.injEq] at hX hq hk
          subst hX; subst hq; subst hk
          rw [show compute_attention_logits (Y :: hs) (q0 :: qs) (k0 :: ks) =
                attnLogitMatrix (q0 Y) (k0 Y) :: compute_attention_logits hs qs ks from rfl,
            List.getElem?_cons_zero]
        | succ n =>
          simp only [List.getElem?_cons_succ] at hX hq hk
          rw [show compute_attention_logits (Y :: hs) (q0 :: qs) (k0 :: ks) =
                attnLogitMatrix (q0 Y) (k0 Y) :: compute_attention_logits hs qs ks from rfl,
            List.getElem?_cons_succ]
          exact ih qs ks n hX hq hk

/-- C5 (amended): `compute_attention_logits` iterates
`zip(hidden_states, queries, keys)`, so on mismatched lengths it silently
produces `min` of the three lengths many logit matrices instead of failing;
when an index is present in all three lists, the output at that index pairs
the layer with its projectors 1:1. -/
theorem compute_attention_logits_zip_semantics :
    ∀ (hs : List Mat) (qs ks : List (Mat → Mat)),
      (compute_attention_logits hs qs ks).length = min (min hs.length qs.length) ks.length ∧
      (∀ (i : Nat) (X : Mat) (q k : Mat → Mat),
        hs[i]? = some X → qs[i]? = some q → ks[i]? = some k →
        (compute_attention_logits hs qs ks)[i]? = some (attnLogitMatrix (q X) (k X))) :=
  fun hs qs ks =>
    ⟨compute_attention_logits_length hs qs ks,
     fun i X q k hX hq hk => compute_attention_logits_get hs qs ks i X q k hX hq hk⟩

/-- Witness for C5's amended statement at matched lengths. -/
theorem compute_attention_logits_zip_semantics_witness :
    (compute_attention_logits [[[(1 : ℝ)]]] [fun X => X] [fun X => X]).length =
      min (min 1 1) 1 ∧
    [[[(1 : ℝ)]]][0]? = some [[(1 : ℝ)]] ∧
    (compute_attention_logits [[[(1 : ℝ)]]] [fun X => X] [fun X => X])[0]? =
      some (attnLogitMatrix [[(1 : ℝ)]] [[(1 : ℝ)]]) :=
  ⟨(compute_attention_logits_zip_semantics [[[(1 : ℝ)]]] [fun X => X] [fun X => X]).1, rfl,
   (compute_attention_logits_zip_semantics [[[(1 : ℝ)]]] [fun X => X] [fun X => X]).2
     0 [[(1 : ℝ)]] (fun X => X) (fun X => X) rfl rfl rfl⟩

/-- Counterexample to C5 as stated: with 2 layers but only 1 query/key
projector, `compute_attention_logits` does not fail — it silently returns a
single logit matrix (Python `zip` truncation). -/
theorem compute_attention_logits_no_failure_counterexample :
    (compute_attention_logits [[[(1 : ℝ)]], [[2]]] [fun X => X] [fun X => X]).length = 1 ∧
    compute_attention_logits [[[(1 : ℝ)]], [[2]]] [fun X => X] [fun X => X] =
      [attnLogitMatrix [[(1 : ℝ)]] [[(1 : ℝ)]]] :=
  ⟨rfl, rfl⟩

/-- C9: each attention-logit entry is the raw `Q·Kᵗ` dot product scaled by
exactly the inverse square root of the key dimensionality `d'`; in particular
for `d' = 4` the unscaled logit is divided by exactly 2. -/
theorem attention_logit_scaling (Q K : Mat) (i j : Nat) (qi kj : List ℝ)
    (hq : Q[i]? = some qi) (hk : K[j]? = some kj) :
    entry (attnLogitMatrix Q K) i j = dot qi kj / Real.sqrt (ncols K) ∧
    (ncols K = 4 → entry (attnLogitMatrix Q K) i j = dot qi kj / 2) := by
  have hmain : entry (attnLogitMatrix Q K) i j = 1 / Real.sqrt (ncols K) * dot qi kj := by
    simp [entry, attnLogitMatrix, List.getElem?_map, hq, hk]
  constructor
  · rw [hmain]; ring
  · intro h4
    rw [hmain, h4]
    have h2 : Real.sqrt ((4 : ℕ) : ℝ) = 2 := by
      rw [show ((4 : ℕ) : ℝ) = 2 ^ 2 by norm_num]
      exact Real.sqrt_sq (by norm_num)
    rw [h2]; ring

/-- Witness for C9 with `d' = 4`. -/
theorem attention_logit_scaling_witness :
    [[(1 : ℝ), 2, 3, 4]][0]? = some [(1 : ℝ), 2, 3, 4] ∧
    [[(1 : ℝ), 1, 1, 1]][0]? = some [(1 : ℝ), 1, 1, 1] ∧
    ncols [[(1 : ℝ), 1, 1, 1]] = 4 ∧
    entry (attnLogitMatrix [[(1 : ℝ), 2, 3, 4]] [[(1 : ℝ), 1, 1, 1]]) 0 0 =
      dot [(1 : ℝ), 2, 3, 4] [(1 : ℝ), 1, 1, 1] / 2 :=
  ⟨rfl, rfl, rfl,
   (attention_logit_scaling [[(1 : ℝ), 2, 3, 4]] [[(1 : ℝ), 1, 1, 1]] 0 0 _ _ rfl rfl).2 rfl⟩

theorem slotValue_of_some {l : List NDArray} {i : Nat} {a : NDArray}
    (h : l[i]? = some a) (tail : List Nat) :
    slotValue l i tail = if inRegion a.shape tail then a.data tail else 0 := by
  rw [slotValue, h]

/-- C3: on a non-empty list of same-rank arrays, `stack_padded` returns an
array of shape `[S, *max_shape]` (element-wise maximum shape), with the first
array's dtype, each input copied into the top-left-aligned region of its slot,
and the pad value 0 everywhere else in a slot. -/
theorem stack_padded_spec (a0 : NDArray) (rest : List NDArray)
    (hrank : ∀ a ∈ a0 :: rest, a.shape.length = a0.shape.length) :
    ∃ out, stack_padded (a0 :: rest) = some out ∧
      out.shape = (a0 :: rest).length :: maxShape (a0 :: rest) a0.shape.length ∧
      out.dtype = a0.dtype ∧
      (∀ (i : Nat) (a : NDArray) (idx : List Nat), (a0 :: rest)[i]? = some a →
        inRegion a.shape idx = true → out.data (i :: idx) = a.data idx) ∧
      (∀ (i : Nat) (a : NDArray) (idx : List Nat), (a0 :: rest)[i]? = some a →
        inRegion a.shape idx = false → out.data (i :: idx) = 0) := by
  have hall : ((a0 :: rest).all fun a => a.shape.length == a0.shape.length) = true :=
    List.all_eq_true.mpr fun a ha => beq_iff_eq.mpr (hrank a ha)
  have key : stack_padded (a0 :: rest) =
      some
        { shape := (a0 :: rest).length :: maxShape (a0 :: rest) a0.shape.length
          dtype := a0.dtype
          data := stackData (a0 :: rest) } := by
    rw [stack_padded, if_pos hall]
  refine ⟨_, key, rfl, rfl, ?_, ?_⟩
  · intro i a idx hi hreg
    show stackData (a0 :: rest) (i :: idx) = a.data idx
    rw [stackData, slotValue_of_some hi, if_pos hreg]
  · intro i a idx hi hreg
    show stackData (a0 :: rest) (i :: idx) = 0
    rw [stackData, slotValue_of_some hi, if_neg (by simp [hreg])]

/-- Witness for C3 on the spec's own example shapes `[3,3]`, `[5,5]`, `[2,2]`:
the stacked result exists, has shape `[3,5,5]`, keeps the first dtype, slot 0
holds the 3×3 array top-left-aligned with zeros elsewhere. -/
theorem stack_padded_spec_witness :
    (∀ a ∈ [padA, padB, padC], a.shape.length = padA.shape.length) ∧
    (∃ out, stack_padded [padA, padB, padC] = some out ∧
      out.shape = [padA, padB, padC].length :: maxShape [padA, padB, padC] padA.shape.length ∧
      out.dtype = padA.dtype ∧
      (∀ (i : Nat) (a : NDArray) (idx : List Nat), [padA, padB, padC][i]? = some a →
        inRegion a.shape idx = true → out.data (i :: idx) = a.data idx) ∧
      (∀ (i : Nat) (a : NDArray) (idx : List Nat), [padA, padB, padC][i]? = some a →
        inRegion a.shape idx = false → out.data (i :: idx) = 0)) ∧
    (stack_padded [padA, padB, padC]).map NDArray.shape = some [3, 5, 5] ∧
    ((stack_padded [padA, padB, padC]).map fun o => o.dtype) = some padA.dtype ∧
    ((stack_padded [padA, padB, padC]).map fun o => o.data [0, 1, 1]) = some (padA.data [1, 1]) ∧
    ((stack_padded [padA, padB, padC]).map fun o => o.data [0, 1, 4]) = some 0 ∧
    ((stack_padded [padA, padB, padC]).map fun o => o.data [0, 4, 4]) = some 0 :=
  ⟨by
      intro a ha
      rcases List.mem_cons.mp ha with rfl | ha
      · rfl
      rcases List.mem_cons.mp ha with rfl | ha
      · rfl
      rcases List.mem_cons.mp ha with rfl | ha
      · rfl
      simp at ha,
   stack_padded_spec padA [padB, padC] (by
      intro a ha
      rcases List.mem_cons.mp ha with rfl | ha
      · rfl
      rcases List.mem_cons.mp ha with rfl | ha
      · rfl
      rcases List.mem_cons.mp ha with rfl | ha
      · rfl
      simp at ha),
   by decide, by decide, by decide, by decide, by decide⟩

/-- C2 (amended): for every clustering input matrix with fewer than 32
columns (so `min(n_samples, n_features) < 32`), the dimensionality-reduction
step fails — `PCA(n_components=32)` raises and `compute_clustering` produces
nothing; there is no fallback to the original dimensionality. -/
theorem compute_clustering_fails_on_narrow_input (pca : Mat → Mat)
    (hdbscan : Mat → List ℤ) (silhouette dbcv : Mat → List ℤ → ℝ)
    (data : List Mat) (X : Mat) (hmem : X ∈ data) (hcols : ncols X < 32) :
    compute_clustering pca hdbscan silhouette dbcv data = none := by
  have hstep : clusterStep pca hdbscan silhouette dbcv X = none := by
    rw [clusterStep, if_neg]
    intro hcon
    exact absurd (le_trans hcon (min_le_right X.length (ncols X))) (Nat.not_le.mpr hcols)
  induction data with
  | nil => simp at hmem
  | cons Y rest ih =>
    rcases List.mem_cons.mp hmem with rfl | hmem'
    · rw [compute_clustering, hstep]
    · rw [compute_clustering]
      cases hY : clusterStep pca hdbscan silhouette dbcv Y with
      | none => rfl
      | some r => rw [ih hmem']; rfl

/-- Witness for C2's amended statement: a 1×1 input matrix makes the whole
clustering call fail. -/
theorem compute_clustering_fails_on_narrow_input_witness :
    [[(7 : ℝ)]] ∈ [[[(7 : ℝ)]]] ∧ ncols [[(7 : ℝ)]] < 32 ∧
    compute_clustering (fun X => X) (fun _ => []) (fun _ _ => 0) (fun _ _ => 0)
      [[[(7 : ℝ)]]] = none :=
  ⟨List.mem_singleton.mpr rfl, by decide,
   compute_clustering_fails_on_narrow_input (fun X => X) (fun _ => [])
     (fun _ _ => 0) (fun _ _ => 0) [[[(7 : ℝ)]]] [[(7 : ℝ)]]
     (List.mem_singleton.mpr rfl) (by decide)⟩

/-- Counterexample to C2 as stated: on a 3×2 input matrix (fewer than 32
columns) the reduction step does not fall back — `compute_clustering` fails
and returns nothing. -/
theorem compute_clustering_narrow_input_counterexample :
    compute_clustering (fun X => X) (fun _ => []) (fun _ _ => 0) (fun _ _ => 0)
      [[[(1 : ℝ), 2], [3, 4], [5, 6]]] = none := by
  rw [compute_clustering, clusterStep, if_neg (by decide)]

/-- C8: whenever `clusterStep` succeeds, the returned labels are exactly the
density-clustering labels of the reduced data; the derived cluster count is
`max label + 1`; the outlier rate is the count of label `-1` divided by the
number of points; and the cohesion (silhouette) and density-validity scores
are the sentinel `1.0` when the cluster count is at most 1 and are the
externally computed scores when it exceeds 1. -/
theorem clusterStep_spec (pca : Mat → Mat) (hdbscan : Mat → List ℤ)
    (silhouette dbcv : Mat → List ℤ → ℝ) (X : Mat) (labels : List ℤ)
    (m : ClusterMetrics) (h : clusterStep pca hdbscan silhouette dbcv X = some (labels, m)) :
    labels = hdbscan (pca X) ∧
    m.numClusters = ((npMax labels + 1 : ℤ) : ℝ) ∧
    m.outlierRate = (labels.count (-1) : ℝ) / (labels.length : ℝ) ∧
    (npMax labels + 1 ≤ 1 → m.silhScore = 1 ∧ m.dbcvScore = 1) ∧
    (1 < npMax labels + 1 →
      m.silhScore = silhouette (pca X) labels ∧ m.dbcvScore = dbcv (pca X) labels) := by
  rw [clusterStep] at h
  by_cases hc : 32 ≤ min X.length (ncols X)
  · rw [if_pos hc] at h
    simp only [Option.some.injEq, Prod.mk.injEq] at h
    obtain ⟨rfl, rfl⟩ := h
    refine ⟨rfl, rfl, rfl, fun hle => ?_, fun hlt => ?_⟩
    · constructor <;>
        exact if_neg (by exact fun hcon => absurd hle (Int.not_le.mpr hcon))
    · constructor <;> exact if_pos hlt
  · rw [if_neg hc] at h
    exact absurd h (by simp)

/-- Witness for C8 on a 32×32 all-zero matrix whose (modelled) clusterer puts
every point in cluster 0: cluster count 1, outlier rate 0, both scores 1. -/
theorem clusterStep_spec_witness :
    ∃ labels m,
      clusterStep (fun X => X) (fun _ => List.replicate 32 (0 : ℤ))
        (fun _ _ => 0) (fun _ _ => 0)
        (List.replicate 32 (List.replicate 32 (0 : ℝ))) = some (labels, m) ∧
      npMax labels + 1 ≤ 1 ∧
      m.silhScore = 1 ∧ m.dbcvScore = 1 ∧
      m.outlierRate = (labels.count (-1) : ℝ) / (labels.length : ℝ) := by
  have hstep : clusterStep (fun X => X) (fun _ => List.replicate 32 (0 : ℤ))
      (fun _ _ => (0 : ℝ)) (fun _ _ => (0 : ℝ))
      (List.replicate 32 (List.replicate 32 (0 : ℝ))) =
      some (List.replicate 32 (0 : ℤ),
        { numClusters := ((npMax (List.replicate 32 (0 : ℤ)) + 1 : ℤ) : ℝ)
          outlierRate := (((List.replicate 32 (0 : ℤ)).count (-1) : ℝ) /
            ((List.replicate 32 (0 : ℤ)).length : ℝ))
          silhScore := 1
          dbcvScore := 1 }) := by
    rw [clusterStep, if_pos (by decide)]
    rfl
  have hle : npMax (List.replicate 32 (0 : ℤ)) + 1 ≤ 1 := by decide
  obtain ⟨-, -, hrate, hsent, -⟩ :=
    clusterStep_spec (fun X => X) (fun _ => List.replicate 32 (0 : ℤ))
      (fun _ _ => 0) (fun _ _ => 0) (List.replicate 32 (List.replicate 32 (0 : ℝ)))
      (List.replicate 32 (0 : ℤ)) _ hstep
  exact ⟨_, _, hstep, hle, (hsent hle).1, (hsent hle).2, hrate⟩

theorem mem_of_getElem_eq_some {α : Type} {l : List α} {i : Nat} {a : α}
    (h : l[i]? = some a) : a ∈ l := by
  induction l generalizing i with
  | nil => simp at h
  | cons x xs ih =>
    cases i with
    | zero =>
      simp only [List.getElem?_cons_zero, Option.some.injEq] at h
      exact h ▸ List.mem_cons_self x xs
    | succ n => exact List.mem_cons_of_mem _ (ih (by simpa using h))

theorem cosSim_entry (X : Mat) (i j : Nat) (u v : List ℝ)
    (hu : X[i]? = some u) (hv : X[j]? = some v) :
    entry (cosSimMatrix X) i j = dot (normalizeRow u) (normalizeRow v) := by
  simp [entry, cosSimMatrix, List.getElem?_map, hu, hv]

theorem cosSim_entry_none (X : Mat) (i j : Nat) (hu : X[i]? = none) :
    entry (cosSimMatrix X) i j = 0 := by
  simp [entry, cosSimMatrix, List.getElem?_map, hu]

theorem cosSim_entry_none_right (X : Mat) (i j : Nat) (u : List ℝ)
    (hu : X[i]? = some u) (hv : X[j]? = none) :
    entry (cosSimMatrix X) i j = 0 := by
  simp [entry, cosSimMatrix, List.getElem?_map, hu, hv]

theorem normalized_dot_self (u : List ℝ) (h : normEps ≤ l2norm u) :
    dot (normalizeRow u) (normalizeRow u) = 1 := by
  have hepspos : (0 : ℝ) < normEps := by norm_num [normEps]
  have hpos : 0 < l2norm u := lt_of_lt_of_le hepspos h
  have hdotpos : 0 < dot u u := by
    rw [l2norm, sqNorm] at hpos
    exact Real.sqrt_pos.mp hpos
  have hmax : max (l2norm u) normEps = l2norm u := max_eq_left h
  rw [normalizeRow, hmax, dot_map_div_self]
  rw [show l2norm u * l2norm u = dot u u by
    rw [l2norm, sqNorm]; exact Real.mul_self_sqrt (dot_self_nonneg u)]
  exact div_self (ne_of_gt hdotpos)

/-- C7 (amended): `compute_cos_similarities` produces, for a layer whose rows
all have norm at least `eps = 1e-12` (torch's normalization clamp), an `N×N`
matrix with unit diagonal; the matrix is symmetric for every input.  (For a
row of nonzero norm below `eps` the clamp makes the diagonal entry
`(‖row‖/eps)² < 1`, so the claim's bare "nonzero norm" hypothesis is not
enough — see the counterexample.) -/
theorem cos_sim_symmetric_unit_diag (X : Mat)
    (h : ∀ u ∈ X, normEps ≤ l2norm u) :
    (cosSimMatrix X).length = X.length ∧
    (∀ (i : Nat) (r : List ℝ), (cosSimMatrix X)[i]? = some r → r.length = X.length) ∧
    (∀ i j, entry (cosSimMatrix X) i j = entry (cosSimMatrix X) j i) ∧
    (∀ (i : Nat) (u : List ℝ), X[i]? = some u → entry (cosSimMatrix X) i i = 1) := by
  refine ⟨by simp [cosSimMatrix], ?_, ?_, ?_⟩
  · intro i r hr
    cases hX : X[i]? with
    | none => rw [cosSimMatrix] at hr; simp [List.getElem?_map, hX] at hr
    | some u =>
      rw [cosSimMatrix] at hr
      simp only [List.getElem?_map, hX, Option.map_some', Option.some.injEq] at hr
      rw [← hr]
      simp
  · intro i j
    cases hi : X[i]? with
    | none =>
      rw [cosSim_entry_none X i j hi]
      cases hj : X[j]? with
      | none => rw [cosSim_entry_none X j i hj]
      | some v => rw [cosSim_entry_none_right X j i v hj hi]
    | some u =>
      cases hj : X[j]? with
      | none => rw [cosSim_entry_none X j i hj, cosSim_entry_none_right X i j u hi hj]
      | some v => rw [cosSim_entry X i j u v hi hj, cosSim_entry X j i v u hj hi, dot_comm]
  · intro i u hu
    rw [cosSim_entry X i i u u hu hu]
    exact normalized_dot_self u (h u (mem_of_getElem_eq_some hu))

/-- Witness for C7's amended statement on the single-row layer `[[3, 4]]`. -/
theorem cos_sim_symmetric_unit_diag_witness :
    (∀ u ∈ [[(3 : ℝ), 4]], normEps ≤ l2norm u) ∧
    entry (cosSimMatrix [[(3 : ℝ), 4]]) 0 0 = 1 ∧
    (∀ i j, entry (cosSimMatrix [[(3 : ℝ), 4]]) i j =
      entry (cosSimMatrix [[(3 : ℝ), 4]]) j i) := by
  have hyp : ∀ u ∈ [[(3 : ℝ), 4]], normEps ≤ l2norm u := by
    intro u hu
    rcases List.mem_cons.mp hu with rfl | hu
    · have hdot : dot [(3 : ℝ), 4] [3, 4] = 25 := by norm_num [dot]
      rw [l2norm, sqNorm, hdot, show (25 : ℝ) = 5 ^ 2 by norm_num,
        Real.sqrt_sq (by norm_num : (0 : ℝ) ≤ 5)]
      norm_num [normEps]
    · simp at hu
  exact ⟨hyp, (cos_sim_symmetric_unit_diag [[(3 : ℝ), 4]] hyp).2.2.2 0 [(3 : ℝ), 4] rfl,
    (cos_sim_symmetric_unit_diag [[(3 : ℝ), 4]] hyp).2.2.1⟩

/-- Counterexample to C7 as stated: the row `[1e-13]` has nonzero norm, yet
its diagonal similarity entry is `1/100`, not `1.0` — torch's normalization
clamps the denominator at `eps = 1e-12`, so rows of norm below `eps` are not
mapped to unit vectors. -/
theorem cos_sim_tiny_nonzero_norm_counterexample :
    l2norm [(1 : ℝ) / 10 ^ 13] ≠ 0 ∧
    entry (cosSimMatrix [[(1 : ℝ) / 10 ^ 13]]) 0 0 = 1 / 100 ∧
    entry (cosSimMatrix [[(1 : ℝ) / 10 ^ 13]]) 0 0 ≠ 1 := by
  have hdot : dot [(1 : ℝ) / 10 ^ 13] [(1 : ℝ) / 10 ^ 13] = ((1 : ℝ) / 10 ^ 13) ^ 2 := by
    simp [dot]; ring
  have hl2 : l2norm [(1 : ℝ) / 10 ^ 13] = 1 / 10 ^ 13 := by
    rw [l2norm, sqNorm, hdot, Real.sqrt_sq (by positivity)]
  have hmax : max (l2norm [(1 : ℝ) / 10 ^ 13]) normEps = normEps := by
    rw [hl2]
    exact max_eq_right (by norm_num [normEps])
  have hval : entry (cosSimMatrix [[(1 : ℝ) / 10 ^ 13]]) 0 0 = 1 / 100 := by
    rw [cosSim_entry [[(1 : ℝ) / 10 ^ 13]] 0 0 [(1 : ℝ) / 10 ^ 13] [(1 : ℝ) / 10 ^ 13] rfl rfl,
      normalizeRow, hmax]
    simp [dot, normEps]
    norm_num
  exact ⟨by rw [hl2]; norm_num, hval, by rw [hval]; norm_num⟩

/-- C6 (amended): for a layer matrix containing a row of zero norm,
`compute_similarity` does not produce NaN/Inf — torch's normalization clamps
the denominator at `eps = 1e-12 > 0`, so the zero-norm row is mapped to the
zero vector and its whole similarity row is finite and identically 0 (in
particular the diagonal entry is 0, not 1). -/
theorem cos_sim_zero_norm_row (X : Mat) (i : Nat) (u : List ℝ)
    (hi : X[i]? = some u) (hz : l2norm u = 0) :
    0 < max (l2norm u) normEps ∧ ∀ j, entry (cosSimMatrix X) i j = 0 := by
  refine ⟨lt_of_lt_of_le (by norm_num [normEps]) (le_max_right _ _), fun j => ?_⟩
  have hdz : dot u u = 0 := by
    rw [l2norm, sqNorm] at hz
    exact (Real.sqrt_eq_zero (dot_self_nonneg u)).mp hz
  have hzero := eq_zero_of_dot_self_eq_zero hdz
  have hnr : ∀ x ∈ normalizeRow u, x = 0 := by
    intro x hx
    rw [normalizeRow] at hx
    obtain ⟨y, hy, rfl⟩ := List.mem_map.mp hx
    rw [hzero y hy, zero_div]
  cases hj : X[j]? with
  | none => exact cosSim_entry_none_right X i j u hi hj
  | some v =>
    rw [cosSim_entry X i j u v hi hj]
    exact dot_eq_zero_of_forall_zero hnr _

/-- Witness for C6's amended statement on `[[0,0],[3,4]]` (row 0 has zero
norm). -/
theorem cos_sim_zero_norm_row_witness :
    [[(0 : ℝ), 0], [3, 4]][0]? = some [(0 : ℝ), 0] ∧
    l2norm [(0 : ℝ), 0] = 0 ∧
    (0 < max (l2norm [(0 : ℝ), 0]) normEps ∧
      ∀ j, entry (cosSimMatrix [[(0 : ℝ), 0], [3, 4]]) 0 j = 0) := by
  have hz : l2norm [(0 : ℝ), 0] = 0 := by
    rw [l2norm, sqNorm, show dot [(0 : ℝ), 0] [0, 0] = 0 by norm_num [dot], Real.sqrt_zero]
  exact ⟨rfl, hz, cos_sim_zero_norm_row [[(0 : ℝ), 0], [3, 4]] 0 [(0 : ℝ), 0] rfl hz⟩

/-- Counterexample to C6 as stated: on `[[0,0],[3,4]]`, whose first row has
zero norm, the similarity matrix is the ordinary finite matrix
`[[0,0],[0,1]]` — no undefined (NaN/Inf) row is produced. -/
theorem cos_sim_zero_row_finite_counterexample :
    l2norm [(0 : ℝ), 0] = 0 ∧
    cosSimMatrix [[(0 : ℝ), 0], [3, 4]] = [[0, 0], [0, 1]] := by
  have hz : l2norm [(0 : ℝ), 0] = 0 := by
    rw [l2norm, sqNorm, show dot [(0 : ℝ), 0] [0, 0] = 0 by norm_num [dot], Real.sqrt_zero]
  have hmax0 : max (l2norm [(0 : ℝ), 0]) normEps = normEps := by
    rw [hz]
    exact max_eq_right (by norm_num [normEps])
  have h34 : l2norm [(3 : ℝ), 4] = 5 := by
    have hdot : dot [(3 : ℝ), 4] [3, 4] = 25 := by norm_num [dot]
    rw [l2norm, sqNorm, hdot, show (25 : ℝ) = 5 ^ 2 by norm_num,
      Real.sqrt_sq (by norm_num : (0 : ℝ) ≤ 5)]
  have hmax34 : max (l2norm [(3 : ℝ), 4]) normEps = 5 := by
    rw [h34]
    exact max_eq_left (by norm_num [normEps])
  refine ⟨hz, ?_⟩
  simp only [cosSimMatrix, normalizeRow, hmax0, hmax34, List.map_cons, List.map_nil, dot]
  norm_num [normEps]

theorem clusterInputFor_token (h l : List Mat) : clusterInputFor tokenTarget h l = l := by
  unfold clusterInputFor
  exact if_neg (by decide)

theorem clusterInputFor_attn (h l : List Mat) : clusterInputFor attnTarget h l = l := by
  unfold clusterInputFor
  exact if_neg (by decide)

/-- C1 is violated by the code: on the line
`data = hidden_states[1:] if target == "X" else logit_matrices` the condition
compares against the leftover string `"X"`, which is never equal to `"token"`
or `"attention_logit"`, so both targets are clustered on the attention-logit
matrices.  First part: for every sample, the "token" target's clustering
input is the logit-matrix list and coincides with the "attention-logit"
target's clustering input.  Second part: at a concrete sample where the token
representations (`[[[2]]]`) differ from the logit matrices, the "token"
target is not clustered on the token representations. -/
theorem token_target_clusters_logit_matrices :
    (∀ (hidden_states : List Mat) (queries keys : List (Mat → Mat)),
      (processSample hidden_states queries keys).token_cluster_input =
        (processSample hidden_states queries keys).attention_logits ∧
      (processSample hidden_states queries keys).token_cluster_input =
        (processSample hidden_states queries keys).attention_logit_cluster_input) ∧
    (processSample [[[(1 : ℝ)]], [[2]]] [fun X => X] [fun X => X]).token_cluster_input ≠
      [[[(2 : ℝ)]]] := by
  constructor
  · intro hs qs ks
    constructor
    · rw [show (processSample hs qs ks).token_cluster_input =
          clusterInputFor tokenTarget (hs.drop 1)
            (compute_attention_logits hs.dropLast qs ks) from rfl,
        show (processSample hs qs ks).attention_logits =
          compute_attention_logits hs.dropLast qs ks from rfl,
        clusterInputFor_token]
    · rw [show (processSample hs qs ks).token_cluster_input =
          clusterInputFor tokenTarget (hs.drop 1)
            (compute_attention_logits hs.dropLast qs ks) from rfl,
        show (processSample hs qs ks).attention_logit_cluster_input =
          clusterInputFor attnTarget (hs.drop 1)
            (compute_attention_logits hs.dropLast qs ks) from rfl,
        clusterInputFor_token, clusterInputFor_attn]
  · intro hcon
    rw [show (processSample [[[(1 : ℝ)]], [[2]]] [fun X => X] [fun X => X]).token_cluster_input =
        clusterInputFor tokenTarget ([[[(1 : ℝ)]], [[2]]].drop 1)
          (compute_attention_logits [[[(1 : ℝ)]], [[2]]].dropLast
            [fun X => X] [fun X => X]) from rfl,
      clusterInputFor_token] at hcon
    rw [show compute_attention_logits [[[(1 : ℝ)]], [[2]]].dropLast [fun X => X] [fun X => X] =
        [attnLogitMatrix [[(1 : ℝ)]] [[(1 : ℝ)]]] from rfl] at hcon
    simp only [attnLogitMatrix, ncols, dot, List.map_cons, List.map_nil, List.headD_cons,
      List.length_cons, List.length_nil, List.cons.injEq, and_true] at hcon
    rw [Nat.cast_one, Real.sqrt_one] at hcon
    norm_num at hcon

end Experimentation
